import Mathlib

/-
Verification of the httprouter repository: class-based routing adapters for
three host frameworks (fastapi.py, starlette.py, litestar.py).

Each adapter module follows the same pattern: HTTP-method decorators attach an
immutable route specification to a method, a ROUTER decorator attaches a router
specification to a class, `inspect_router` reflectively collects the attached
specifications, and `mount_router` replays them into the host framework.

The embedding below is a shallow translation of those three modules:
  - Python objects carrying tagged attributes become Lean structures whose
    optional fields model presence/absence of the attribute
    (`route_spec = none` models "hasattr(member, ROUTE_SPEC_ATTR) is False").
  - The member scan of `inspect.getmembers` is modelled as a list traversal
    over the member list of the class (in enumeration order).
  - Raising `TypeError` is modelled by `Except String`, carrying the exact
    message raised by the source.
  - `str.rstrip("/")` / `str.lstrip("/")` become `rstripSlash` / `lstripSlash`.
  - The Python parameter named `p-r-e-f-i-x` (a reserved word in Lean) is
    renamed `pfx` throughout; field names otherwise follow the source.
  - Opaque framework values (middleware objects, dependency objects, response
    specifications, ...) are modelled as `Nat` tokens: the adapter code never
    inspects them, it only moves them around.
  - For the mutation-freedom claim, a second, heap-level embedding of
    `mount_router` threads an explicit object store so that `replace` (copy)
    and field assignment are visible as allocation and in-place update.
-/

/-- Python `s.lstrip("/")` on a character list: drop every leading slash. -/
def lstripSlashL (l : List Char) : List Char := l.dropWhile (fun c => c = '/')

/-- Python `s.rstrip("/")` on a character list: drop every trailing slash. -/
def rstripSlashL (l : List Char) : List Char :=
  (l.reverse.dropWhile (fun c => c = '/')).reverse

/-- Python `s.lstrip("/")`. -/
def lstripSlash (s : String) : String := ⟨lstripSlashL s.data⟩

/-- Python `s.rstrip("/")`. -/
def rstripSlash (s : String) : String := ⟨rstripSlashL s.data⟩

/-- A member of a router class, as seen by `inspect.getmembers`: an underlying
callable (identified by `id`) together with the attribute tags the decorators
may have attached to it.  `route_spec = some s` models the presence of the
`__route_spec__` attribute with value `s`, and similarly for
`__ws_route_spec__` and the `__router_lifespan__` marker (the marker carries
no value in the source, hence a `Bool` here).  The spec types `σ` and `ω` are
per-module (fastapi / starlette / litestar ROUTE and WEBSOCKET). -/
structure Member (σ ω : Type) where
  name : String
  id : Nat
  route_spec : Option σ := none
  ws_route_spec : Option ω := none
  lifespan_marker : Bool := false

/-- A (possibly decorated) router class: the optional `__router_spec__`
attribute attached by the ROUTER decorator, and the member list enumerated by
`inspect.getmembers` (alphabetical by member name in CPython; the order is
carried by the list). -/
structure RouterObj (ρ σ ω : Type) where
  router_spec : Option ρ
  members : List (Member σ ω)

/-- The exact message of the `TypeError` raised by `inspect_router` in each of
the three modules. -/
def routerDecoratorError : String :=
  "router classes must be decorated with @router decorator"

/-- `_find_routes_from_router`: the member scan collecting every member that
carries the `__route_spec__` attribute, paired with the attached spec.  The
identical loop appears in fastapi.py, starlette.py and litestar.py; it is
embedded once, generically in the spec types. -/
def find_routes_from_router {σ ω : Type} (ms : List (Member σ ω)) :
    List (Member σ ω × σ) :=
  ms.filterMap (fun m => m.route_spec.map (fun s => (m, s)))

/-- `_find_websocket_routes_from_router`: the member scan for the
`__ws_route_spec__` attribute (identical in all three modules). -/
def find_websocket_routes_from_router {σ ω : Type} (ms : List (Member σ ω)) :
    List (Member σ ω × ω) :=
  ms.filterMap (fun m => m.ws_route_spec.map (fun s => (m, s)))

/-- `_find_lifespan` (fastapi.py): the first member carrying the
`__router_lifespan__` marker, if any. -/
def find_lifespan {σ ω : Type} (ms : List (Member σ ω)) : Option (Member σ ω) :=
  ms.find? (fun m => m.lifespan_marker)

/-! ## The starlette adapter (src/httprouter/starlette.py) -/

namespace Starlette

/-- Opaque starlette `Middleware` object, modelled as a token. -/
abbrev Middleware := Nat

/-- starlette.py `ROUTE` dataclass: the route specification attached by the
HTTP-method decorators.  Field defaults are the dataclass defaults; the
Python field named like the mount path argument keeps its source name. -/
structure ROUTE where
  path : String
  include_in_schema : Bool := true
  name : Option String := none
  middleware : Option (List Middleware) := none
  methods : List String := ["GET"]
deriving Inhabited, DecidableEq

/-- starlette.py `WEBSOCKET` dataclass. -/
structure WEBSOCKET where
  path : String
  name : Option String := none
deriving Inhabited, DecidableEq

/-- A starlette router method: a `Member` whose spec types are the starlette
`ROUTE` and `WEBSOCKET`. -/
abbrev Fn := Member ROUTE WEBSOCKET

/-- `ROUTE.__call__`: applying a route decorator to a function sets the
`__route_spec__` attribute to the decorator instance and returns the very
same function (same callable identity, all other attributes untouched). -/
def ROUTE.call (self : ROUTE) (fn : Fn) : Fn := { fn with route_spec := some self }

/-- `WEBSOCKET.__call__`: sets `__ws_route_spec__` and returns the function. -/
def WEBSOCKET.call (self : WEBSOCKET) (fn : Fn) : Fn :=
  { fn with ws_route_spec := some self }

/-- `GET(path)` with all options defaulted: a `ROUTE` whose `methods` field
defaults to `["GET"]` (the subclass only overrides the `methods` default). -/
def GET (path : String) : ROUTE := { path := path, methods := ["GET"] }

/-- `POST(path)` with all options defaulted. -/
def POST (path : String) : ROUTE := { path := path, methods := ["POST"] }

/-- `PUT(path)` with all options defaulted. -/
def PUT (path : String) : ROUTE := { path := path, methods := ["PUT"] }

/-- `PATCH(path)` with all options defaulted. -/
def PATCH (path : String) : ROUTE := { path := path, methods := ["PATCH"] }

/-- `DELETE(path)` with all options defaulted. -/
def DELETE (path : String) : ROUTE := { path := path, methods := ["DELETE"] }

/-- starlette.py `RouterSpec` dataclass (`pfx` renames the source's mount-path
field, a reserved word in Lean). -/
structure RouterSpec where
  pfx : String := ""
  middleware : Option (List Middleware) := none
deriving Inhabited, DecidableEq

/-- A starlette router class object. -/
abbrev RouterT := RouterObj RouterSpec ROUTE WEBSOCKET

/-- The `ROUTER` decorator: attaches a `RouterSpec` to the class
(`_set_router_spec`).  The accompanying `dataclass(cls)` transformation does
not touch the attached specifications. -/
def ROUTER (spec : RouterSpec) (ms : List Fn) : RouterT := ⟨some spec, ms⟩

/-- starlette.py `RouterMembers`. -/
structure RouterMembers where
  spec : RouterSpec
  routes : List (Fn × ROUTE)
  websocket_routes : List (Fn × WEBSOCKET)

/-- starlette.py `inspect_router`: raises `TypeError` when the class carries no
router specification, otherwise collects the decorated members. -/
def inspect_router (router : RouterT) : Except String RouterMembers :=
  match router.router_spec with
  | none => .error routerDecoratorError
  | some spec =>
      .ok ⟨spec, find_routes_from_router router.members,
        find_websocket_routes_from_router router.members⟩

/-- starlette.py `concat`: `None`-aware middleware merge; with both sides
present it is `[*a, *b]`. -/
def concat {α : Type} (a b : Option (List α)) : Option (List α) :=
  match a, b with
  | none, none => none
  | none, some bs => some bs
  | some as_, none => some as_
  | some as_, some bs => some (as_ ++ bs)

/-- starlette.py `_get_path`: the explicit path concatenation.  The source
reads `spec.path` from the `ROUTE` or `WEBSOCKET` object; here the path is
passed directly. -/
def get_path (mountPfx : String) (routerSpec : RouterSpec) (specPath : String) :
    String :=
  let mp := rstripSlash mountPfx
  let rp := lstripSlash (rstripSlash routerSpec.pfx)
  let p := lstripSlash specPath
  if rp = "" then mp ++ "/" ++ p else mp ++ "/" ++ rp ++ "/" ++ p

/-- A `starlette.routing.Route` as registered on the application: the endpoint
callable plus the keyword arguments taken from `asdict(route_spec)`. -/
structure RouteReg where
  endpoint : Nat
  path : String
  include_in_schema : Bool
  name : Option String
  middleware : Option (List Middleware)
  methods : List String
deriving DecidableEq

/-- A `starlette.routing.WebSocketRoute` as registered on the application. -/
structure WsReg where
  endpoint : Nat
  path : String
  name : Option String
deriving DecidableEq

/-- One entry of `app.routes`. -/
inductive SReg where
  | route (r : RouteReg)
  | ws (w : WsReg)
deriving DecidableEq

/-- `app.routes` of the starlette application (the only application state the
adapter touches). -/
abbrev App := List SReg

/-- starlette.py `mount_router`, value level: discovery, then for each route a
copy of the spec (`replace`) gets its middleware merged and its path composed
before a `Route` is appended to `app.routes`; websocket routes likewise.  The
copies mean the argument specifications are not affected; the heap-level
embedding below makes that explicit.  Raising propagates the application state
unchanged. -/
def mount_router (app : App) (router : RouterT) (pfx : String) :
    (Except String Unit) × App :=
  match inspect_router router with
  | .error e => (.error e, app)
  | .ok members =>
      let spec := members.spec
      let app1 := members.routes.foldl (fun acc p =>
        let rs := p.2
        let rs := { rs with middleware := concat spec.middleware rs.middleware }
        let rs := { rs with path := get_path pfx spec rs.path }
        acc ++ [SReg.route
          ⟨p.1.id, rs.path, rs.include_in_schema, rs.name, rs.middleware,
            rs.methods⟩]) app
      let app2 := members.websocket_routes.foldl (fun acc p =>
        let ws := p.2
        let ws := { ws with path := get_path pfx spec ws.path }
        acc ++ [SReg.ws ⟨p.1.id, ws.path, ws.name⟩]) app1
      (.ok (), app2)

end Starlette

/-! ## The litestar adapter (src/httprouter/litestar.py) -/

namespace Litestar

/-- Opaque litestar value (a `ResponseSpec`, middleware object, ...), modelled
as a token: the adapter only moves these around. -/
abbrev PyObj := Nat

/-- A Python `dict` with `int` keys (the `responses` mapping `int ->
ResponseSpec`), modelled as an association list in insertion order with
distinct keys. -/
abbrev Dict := List (Nat × PyObj)

/-- Python `d[k] = v` on a dict: overwrite in place if the key is present,
otherwise append (insertion order). -/
def dictInsert (d : Dict) (k : Nat) (v : PyObj) : Dict :=
  if d.any (fun kv => kv.1 = k) then
    d.map (fun kv => if kv.1 = k then (k, v) else kv)
  else d ++ [(k, v)]

/-- Python `{**a, **b}`: start from `a` and insert every entry of `b`, so for
a key present in both the value from `b` wins. -/
def dictOverlay (a b : Dict) : Dict :=
  b.foldl (fun acc kv => dictInsert acc kv.1 kv.2) a

/-- Python `d.get(k)` / `k in d`: first (and, for a well-formed dict, only)
binding of the key. -/
def dlookup (d : Dict) (k : Nat) : Option PyObj :=
  (d.find? (fun kv => kv.1 = k)).map (fun kv => kv.2)

/-- litestar.py `merge`: `None`-aware dict merge; with both sides present it
is `{**a, **b}` (keys of `b` win ties). -/
def merge (a b : Option Dict) : Option Dict :=
  match a, b with
  | none, none => none
  | none, some bs => some bs
  | some as_, none => some as_
  | some as_, some bs => some (dictOverlay as_ bs)

/-- litestar.py `concat_unique`: `None`-aware tag merge; with both sides
present it is `list({*a, *b})`, the set of elements of both sides with
duplicates discarded.  Python's set iteration order is unspecified; the
canonical representative `(a ++ b).dedup` is chosen (the claims about this
function are set-level). -/
def concat_unique (a b : Option (List String)) : Option (List String) :=
  match a, b with
  | none, none => none
  | none, some bs => some bs
  | some as_, none => some as_
  | some as_, some bs => some ((as_ ++ bs).dedup)

/-- litestar.py `ROUTE` dataclass, restricted to the fields the verified
operations read or write (`path`, `http_method`, `status_code`, `name`,
`tags`, `responses`).  The remaining per-route option fields (cache, guards,
dto, hooks, ...) are opaque to the adapter: `mount_router` carries them
through `asdict` unchanged, so they are omitted from the embedding. -/
structure ROUTE where
  path : String
  http_method : String := "GET"
  status_code : Option Nat := none
  name : Option String := none
  tags : Option (List String) := none
  responses : Option Dict := none
deriving Inhabited, DecidableEq

/-- litestar.py `WEBSOCKET` dataclass. -/
structure WEBSOCKET where
  path : String
  name : Option String := none
deriving Inhabited, DecidableEq

/-- A litestar router method. -/
abbrev Fn := Member ROUTE WEBSOCKET

/-- `ROUTE.__call__`: sets `__route_spec__` and returns the same function. -/
def ROUTE.call (self : ROUTE) (fn : Fn) : Fn := { fn with route_spec := some self }

/-- `WEBSOCKET.__call__`: sets `__ws_route_spec__` and returns the function. -/
def WEBSOCKET.call (self : WEBSOCKET) (fn : Fn) : Fn :=
  { fn with ws_route_spec := some self }

/-- `GET(path)` with all options defaulted: `http_method` defaults to the
decorator's own method. -/
def GET (path : String) : ROUTE := { path := path, http_method := "GET" }

/-- `POST(path)` with all options defaulted. -/
def POST (path : String) : ROUTE := { path := path, http_method := "POST" }

/-- `PUT(path)` with all options defaulted. -/
def PUT (path : String) : ROUTE := { path := path, http_method := "PUT" }

/-- `PATCH(path)` with all options defaulted. -/
def PATCH (path : String) : ROUTE := { path := path, http_method := "PATCH" }

/-- `DELETE(path)` with all options defaulted. -/
def DELETE (path : String) : ROUTE := { path := path, http_method := "DELETE" }

/-- litestar.py `RouterSpec` dataclass, restricted to the fields
`mount_router` reads or writes (`pfx` renames the source's mount-path field;
`include_in_schema` is `bool | Empty` in the source, `none` modelling
`Empty`; `tags`/`responses` as in the source).  The remaining router-level
option fields are opaque pass-through and omitted. -/
structure RouterSpec where
  pfx : String := ""
  tags : Option (List String) := none
  include_in_schema : Option Bool := none
  responses : Option Dict := none
deriving Inhabited, DecidableEq

/-- A litestar router class object. -/
abbrev RouterT := RouterObj RouterSpec ROUTE WEBSOCKET

/-- The `ROUTER` decorator: attaches a `RouterSpec` to the class. -/
def ROUTER (spec : RouterSpec) (ms : List Fn) : RouterT := ⟨some spec, ms⟩

/-- litestar.py `RouterMembers`. -/
structure RouterMembers where
  spec : RouterSpec
  routes : List (Fn × ROUTE)
  websocket_routes : List (Fn × WEBSOCKET)

/-- litestar.py `inspect_router`. -/
def inspect_router (router : RouterT) : Except String RouterMembers :=
  match router.router_spec with
  | none => .error routerDecoratorError
  | some spec =>
      .ok ⟨spec, find_routes_from_router router.members,
        find_websocket_routes_from_router router.members⟩

/-- The inline host/router path join of litestar's `mount_router`
(`f-string` of the stripped mount path argument and the stripped router
path). -/
def mount_pfx_join (pfx specPfx : String) : String :=
  rstripSlash pfx ++ "/" ++ lstripSlash specPfx

/-- A `route(...)`-decorated handler as registered on the litestar router:
the endpoint plus the keyword options built from `asdict(route_spec)`, with
`options["responses"]` overridden by the (merged) router-level responses as
in the source. -/
structure HandlerReg where
  endpoint : Nat
  path : String
  http_method : String
  status_code : Option Nat
  name : Option String
  tags : Option (List String)
  responses : Option Dict
deriving DecidableEq

/-- A `websocket(...)`-decorated handler as registered. -/
structure WsHandlerReg where
  endpoint : Nat
  path : String
  name : Option String
deriving DecidableEq

/-- The `litestar.Router` built by `mount_router` and registered on the
application: its path, the router-level options passed to the constructor
(minus `responses`, which the source deletes from the options), and the
registered handlers. -/
structure LReg where
  path : String
  tags : Option (List String)
  include_in_schema : Option Bool
  handlers : List HandlerReg
  ws_handlers : List WsHandlerReg
deriving DecidableEq

/-- `app.register(...)` state of the litestar application. -/
abbrev App := List LReg

/-- litestar.py `mount_router`, value level: discovery, then a copy
(`replace`) of the router spec gets its responses merged (mount-call side
first, so the router-level value wins ties), its tags merged, its path
joined with the mount path when one is given, and its `include_in_schema`
overridden when the argument is not `Empty`.  Each route spec copy gets its
responses merged with the router-level ones, but the option actually passed
to `route(...)` is then overridden with the router-level merged mapping
(`options["responses"] = spec.responses` in the source).  Raising propagates
the application state unchanged. -/
def mount_router (app : App) (router : RouterT) (pfx : String)
    (responses : Option Dict) (tags : Option (List String))
    (include_in_schema : Option Bool) : (Except String Unit) × App :=
  match inspect_router router with
  | .error e => (.error e, app)
  | .ok members =>
      let spec := members.spec
      let spec := { spec with responses := merge responses spec.responses }
      let spec := { spec with tags := concat_unique tags spec.tags }
      let spec := if pfx ≠ "" then { spec with pfx := mount_pfx_join pfx spec.pfx }
        else spec
      let spec := match include_in_schema with
        | some b => { spec with include_in_schema := some b }
        | none => spec
      let handlers := members.routes.map (fun p =>
        let rs := p.2
        let rs := { rs with responses := merge spec.responses rs.responses }
        HandlerReg.mk p.1.id rs.path rs.http_method rs.status_code rs.name
          rs.tags spec.responses)
      let ws_handlers := members.websocket_routes.map (fun p =>
        WsHandlerReg.mk p.1.id p.2.path p.2.name)
      (.ok (),
        app ++ [LReg.mk spec.pfx spec.tags spec.include_in_schema handlers
          ws_handlers])

end Litestar

/-! ## The fastapi adapter (src/httprouter/fastapi.py) -/

namespace Fastapi

/-- Opaque fastapi value (a `Depends` object, a response-model annotation, a
`Default(...)` sentinel, ...), modelled as a token. -/
abbrev PyObj := Nat

/-- The `Default(None)` / `Default(JSONResponse)` sentinel values, opaque to
the adapter. -/
def defaultSentinel : PyObj := 0

/-- fastapi.py `ROUTE` dataclass: the full per-route option bag.  Field
defaults are the dataclass defaults; framework-typed values are opaque
tokens. -/
structure ROUTE where
  path : String
  status_code : Option Nat := none
  response_model : PyObj := defaultSentinel
  tags : Option (List String) := none
  summary : Option String := none
  description : Option String := none
  response_description : String := "Successful Response"
  responses : Option (List (Nat × PyObj)) := none
  dependencies : Option (List PyObj) := none
  deprecated : Option Bool := none
  operation_id : Option String := none
  response_model_include : Option PyObj := none
  response_model_exclude : Option PyObj := none
  response_model_by_alias : Bool := true
  response_model_exclude_unset : Bool := false
  response_model_exclude_defaults : Bool := false
  response_model_exclude_none : Bool := false
  include_in_schema : Bool := true
  name : Option String := none
  openapi_extra : Option PyObj := none
  methods : List String := ["GET"]
deriving Inhabited, DecidableEq

/-- fastapi.py `WEBSOCKET` dataclass. -/
structure WEBSOCKET where
  path : String
  name : Option String := none
deriving Inhabited, DecidableEq

/-- A fastapi router method. -/
abbrev Fn := Member ROUTE WEBSOCKET

/-- `ROUTE.__call__`: sets `__route_spec__` and returns the same function. -/
def ROUTE.call (self : ROUTE) (fn : Fn) : Fn := { fn with route_spec := some self }

/-- `WEBSOCKET.__call__`: sets `__ws_route_spec__` and returns the function. -/
def WEBSOCKET.call (self : WEBSOCKET) (fn : Fn) : Fn :=
  { fn with ws_route_spec := some self }

/-- `GET(path)` with all options defaulted: `methods` defaults to `["GET"]`. -/
def GET (path : String) : ROUTE := { path := path, methods := ["GET"] }

/-- `POST(path)` with all options defaulted. -/
def POST (path : String) : ROUTE := { path := path, methods := ["POST"] }

/-- `PUT(path)` with all options defaulted. -/
def PUT (path : String) : ROUTE := { path := path, methods := ["PUT"] }

/-- `PATCH(path)` with all options defaulted. -/
def PATCH (path : String) : ROUTE := { path := path, methods := ["PATCH"] }

/-- `DELETE(path)` with all options defaulted. -/
def DELETE (path : String) : ROUTE := { path := path, methods := ["DELETE"] }

/-- fastapi.py `RouterSpec` dataclass (`pfx` renames the source's mount-path
field). -/
structure RouterSpec where
  pfx : String := ""
  tags : Option (List String) := none
  responses : Option (List (Nat × PyObj)) := none
  deprecated : Option Bool := none
  include_in_schema : Bool := true
  dependencies : Option (List PyObj) := none
  default_response_class : PyObj := defaultSentinel
deriving Inhabited, DecidableEq

/-- A fastapi router class object. -/
abbrev RouterT := RouterObj RouterSpec ROUTE WEBSOCKET

/-- The `ROUTER` decorator: attaches a `RouterSpec` to the class. -/
def ROUTER (spec : RouterSpec) (ms : List Fn) : RouterT := ⟨some spec, ms⟩

/-- The `LIFESPAN` decorator at the member level: wraps the method with
`asynccontextmanager` (behaviour modelled separately below) and tags it with
the `__router_lifespan__` marker so discovery can find it. -/
def LIFESPAN (fn : Fn) : Fn := { fn with lifespan_marker := true }

/-- fastapi.py `RouterMembers` (with the discovered lifespan hook). -/
structure RouterMembers where
  spec : RouterSpec
  routes : List (Fn × ROUTE)
  websocket_routes : List (Fn × WEBSOCKET)
  lifespan : Option Fn

/-- fastapi.py `inspect_router`. -/
def inspect_router (router : RouterT) : Except String RouterMembers :=
  match router.router_spec with
  | none => .error routerDecoratorError
  | some spec =>
      .ok ⟨spec, find_routes_from_router router.members,
        find_websocket_routes_from_router router.members,
        find_lifespan router.members⟩

/-- An entry added by `api_router.add_api_route(endpoint=fn,
**asdict(route_spec))`: the endpoint and the spec passed verbatim. -/
abbrev AddedRoute := Nat × ROUTE

/-- An entry added by `add_api_websocket_route`. -/
abbrev AddedWs := Nat × WEBSOCKET

/-- The keyword arguments of `mount_router` forwarded to
`app.include_router`. -/
structure MountArgs where
  pfx : String := ""
  tags : Option (List String) := none
  responses : Option (List (Nat × PyObj)) := none
  deprecated : Option Bool := none
  include_in_schema : Bool := true
  dependencies : Option (List PyObj) := none
  default_response_class : PyObj := defaultSentinel
deriving Inhabited

/-- The `APIRouter` built by `mount_router` as included on the application:
its router-level options (`asdict(members.spec)`), its lifespan hook (the
discovered member, if any, wrapped by `_make_lifespan_for_router`), the added
routes, and the `include_router` arguments.  All merging of these options is
delegated to fastapi's `include_router`, outside this repository. -/
structure IncludedRouter where
  spec : RouterSpec
  lifespan : Option Fn
  routes : List AddedRoute
  websocket_routes : List AddedWs
  args : MountArgs

/-- The fastapi application state the adapter touches: the routers included
by `include_router`. -/
abbrev App := List IncludedRouter

/-- fastapi.py `mount_router`, value level: discovery, then one `APIRouter`
is built, filled, and handed to `app.include_router`.  Raising propagates the
application state unchanged. -/
def mount_router (app : App) (router : RouterT) (args : MountArgs) :
    (Except String Unit) × App :=
  match inspect_router router with
  | .error e => (.error e, app)
  | .ok members =>
      (.ok (),
        app ++ [⟨members.spec, members.lifespan,
          members.routes.map (fun p => (p.1.id, p.2)),
          members.websocket_routes.map (fun p => (p.1.id, p.2)), args⟩])

/-! ### Lifespan semantics

The lifespan hook marked by `LIFESPAN` is an async generator wrapped by
`asynccontextmanager`: the code before its `yield` is the setup, the code
after it the teardown.  `_make_lifespan_for_router` wraps it once more:

    async def wrapper(_):
        async with lifespan():
            yield None

so the host's application-lifecycle block runs inside the router's
scoped-resource block.  The control flow of Python's `async with`
(`enter; try: body; finally: exit`) is embedded as a small program
language with an execution function producing the event trace and the
outcome of the body. -/

/-- A scoped resource (async context manager): one abstract event for its
setup (the code before the generator's `yield`) and one for its teardown
(the code after it). -/
structure CM where
  enter_ev : Nat
  exit_ev : Nat

/-- How a block finishes: normal completion, early return, or an exception. -/
inductive Outcome where
  | ok
  | ret
  | exn (e : Nat)
deriving DecidableEq

/-- Structured control flow of the host-level lifecycle body: atomic events,
raising, early return, sequencing, and `try/finally` (the expansion of
`with`). -/
inductive Prog where
  | act (e : Nat)
  | raiseE (e : Nat)
  | retE
  | seqP (p q : Prog)
  | tryFinallyP (p f : Prog)

/-- Execution: the emitted event trace and the outcome.  `seqP` stops at a
non-normal outcome; `tryFinallyP` always runs the finaliser, whose own
non-normal outcome would replace the body's (Python semantics). -/
def execP : Prog → List Nat × Outcome
  | .act e => ([e], .ok)
  | .raiseE e => ([], .exn e)
  | .retE => ([], .ret)
  | .seqP p q =>
      let r := execP p
      match r.2 with
      | .ok => let s := execP q; (r.1 ++ s.1, s.2)
      | _ => r
  | .tryFinallyP p f =>
      let r := execP p
      let s := execP f
      (r.1 ++ s.1, match s.2 with
        | .ok => r.2
        | o => o)

/-- Python `async with cm: body` — enter the scoped block, then run the body
under a `finally` that runs the teardown on every exit path. -/
def pyWith (cm : CM) (body : Prog) : Prog :=
  .seqP (.act cm.enter_ev) (.tryFinallyP body (.act cm.exit_ev))

/-- fastapi.py `_make_lifespan_for_router`: `None` stays `None`; a discovered
lifespan hook becomes the wrapper whose body (the host's lifecycle
continuation, received at the wrapper's `yield`) runs inside the hook's
scoped-resource block. -/
def make_lifespan_for_router (lifespan : Option CM) : Option (Prog → Prog) :=
  lifespan.map (fun cm => fun hostBody => pyWith cm hostBody)

end Fastapi

/-! ## Heap-level embedding of mounting

To state that `mount_router` never mutates the specification objects attached
to a router (it mutates only `replace`-copies), Python's object store is made
explicit: specs live on heaps addressed by allocation order, `replace` is an
allocation of a copy, and field assignment is an in-place update at an
address.  The router object and its members then reference specs by
address. -/

/-- An object store: addresses are list indices in allocation order. -/
abbrev Heap (α : Type) := List α

/-- Allocate a new object, returning its address. -/
def halloc {α : Type} (h : Heap α) (v : α) : Heap α × Nat := (h ++ [v], h.length)

/-- In-place field update: write the whole (updated) record back at the
address. -/
def hset {α : Type} (h : Heap α) (i : Nat) (v : α) : Heap α := h.set i v

/-- Dereference an address. -/
def hget {α : Type} [Inhabited α] (h : Heap α) (i : Nat) : α := h.getD i default

namespace Starlette

/-- A router object at the heap level: the attached router spec and the
discovered members' specs are references into the respective heaps; the
member scan itself is value-level (`inspect_router` above), so the object
carries the `(endpoint id, spec address)` pairs the scan yields. -/
structure RouterObjH where
  router_spec : Option Nat
  routes : List (Nat × Nat)
  ws_routes : List (Nat × Nat)

/-- One iteration of the route loop of starlette's `mount_router`, heap
level: allocate a copy of the route spec (`replace`), assign its `middleware`
and `path` fields in place, and register a `Route` built from the copy's
final state. -/
def mount_route_step (spec : RouterSpec) (pfx : String)
    (acc : Heap ROUTE × App) (q : Nat × Nat) : Heap ROUTE × App :=
  let pc := halloc acc.1 (hget acc.1 q.2)
  let a := pc.2
  let h1 := hset pc.1 a
    { hget pc.1 a with middleware := concat spec.middleware (hget pc.1 a).middleware }
  let h2 := hset h1 a { hget h1 a with path := get_path pfx spec (hget h1 a).path }
  let v := hget h2 a
  (h2, acc.2 ++ [SReg.route
    ⟨q.1, v.path, v.include_in_schema, v.name, v.middleware, v.methods⟩])

/-- One iteration of the websocket loop of starlette's `mount_router`, heap
level. -/
def mount_ws_step (spec : RouterSpec) (pfx : String)
    (acc : Heap WEBSOCKET × App) (q : Nat × Nat) : Heap WEBSOCKET × App :=
  let pc := halloc acc.1 (hget acc.1 q.2)
  let a := pc.2
  let h1 := hset pc.1 a { hget pc.1 a with path := get_path pfx spec (hget pc.1 a).path }
  let v := hget h1 a
  (h1, acc.2 ++ [SReg.ws ⟨q.1, v.path, v.name⟩])

/-- starlette.py `mount_router`, heap level.  `spec = replace(members.spec)`
allocates a copy of the router spec; each loop iteration allocates a copy of
the route spec (`replace`), assigns its `middleware` and `path` fields in
place, and registers a `Route` built from the copy's final state; websocket
specs likewise.  Returns the raised error (if any) and the final heaps and
application state. -/
def mount_router_heap (rh : Heap RouterSpec) (th : Heap ROUTE)
    (wh : Heap WEBSOCKET) (app : App) (r : RouterObjH) (pfx : String) :
    (Except String Unit) × Heap RouterSpec × Heap ROUTE × Heap WEBSOCKET × App :=
  match r.router_spec with
  | none => (.error routerDecoratorError, rh, th, wh, app)
  | some ra =>
      let pr := halloc rh (hget rh ra)
      let rh1 := pr.1
      let spec := hget rh1 pr.2
      let pa := r.routes.foldl (mount_route_step spec pfx) (th, app)
      let pw := r.ws_routes.foldl (mount_ws_step spec pfx) (wh, pa.2)
      (.ok (), rh1, pa.1, pw.1, pw.2)

end Starlette

namespace Litestar

/-- A litestar router object at the heap level (as for starlette). -/
structure RouterObjH where
  router_spec : Option Nat
  routes : List (Nat × Nat)
  ws_routes : List (Nat × Nat)

/-- The four in-place updates litestar's `mount_router` performs on the
freshly allocated copy of the router spec (`responses`, `tags`, conditional
path join, conditional `include_in_schema`). -/
def mount_spec_updates (rh : Heap RouterSpec) (sa : Nat) (pfx : String)
    (responses : Option Dict) (tags : Option (List String))
    (include_in_schema : Option Bool) : Heap RouterSpec :=
  let rh2 := hset rh sa
    { hget rh sa with responses := merge responses (hget rh sa).responses }
  let rh3 := hset rh2 sa
    { hget rh2 sa with tags := concat_unique tags (hget rh2 sa).tags }
  let rh4 := if pfx ≠ "" then
      hset rh3 sa { hget rh3 sa with pfx := mount_pfx_join pfx (hget rh3 sa).pfx }
    else rh3
  match include_in_schema with
  | some b => hset rh4 sa { hget rh4 sa with include_in_schema := some b }
  | none => rh4

/-- One iteration of the route loop of litestar's `mount_router`, heap level:
allocate a copy of the route spec (`replace`), assign its `responses` field
in place, and register a handler built from the copy's final state — except
that its `responses` option is overridden with the router-level merged
mapping, as in the source. -/
def mount_handler_step (spec : RouterSpec)
    (acc : Heap ROUTE × List HandlerReg) (q : Nat × Nat) :
    Heap ROUTE × List HandlerReg :=
  let pc := halloc acc.1 (hget acc.1 q.2)
  let a := pc.2
  let h1 := hset pc.1 a
    { hget pc.1 a with responses := merge spec.responses (hget pc.1 a).responses }
  let v := hget h1 a
  (h1, acc.2 ++ [HandlerReg.mk q.1 v.path v.http_method v.status_code
    v.name v.tags spec.responses])

/-- litestar.py `mount_router`, heap level.  `spec = replace(members.spec)`
allocates a copy of the router spec; the four subsequent assignments
(`mount_spec_updates`) update that copy in place.  Each loop iteration
(`mount_handler_step`) allocates a copy of the route spec and assigns its
`responses` field in place; websocket handling only reads.  Returns the
raised error (if any) and the final heaps and application state. -/
def mount_router_heap (rh : Heap RouterSpec) (th : Heap ROUTE)
    (wh : Heap WEBSOCKET) (app : App) (r : RouterObjH) (pfx : String)
    (responses : Option Dict) (tags : Option (List String))
    (include_in_schema : Option Bool) :
    (Except String Unit) × Heap RouterSpec × Heap ROUTE × Heap WEBSOCKET × App :=
  match r.router_spec with
  | none => (.error routerDecoratorError, rh, th, wh, app)
  | some ra =>
      let pr := halloc rh (hget rh ra)
      let sa := pr.2
      let rh1 := pr.1
      let rh5 := mount_spec_updates rh1 sa pfx responses tags include_in_schema
      let spec := hget rh5 sa
      let pa := r.routes.foldl (mount_handler_step spec) (th, [])
      let ws_handlers := r.ws_routes.map (fun q =>
        let v := hget wh q.2
        WsHandlerReg.mk q.1 v.path v.name)
      (.ok (), rh5, pa.1, wh,
        app ++ [LReg.mk spec.pfx spec.tags spec.include_in_schema pa.2 ws_handlers])

end Litestar

/-! ## Helper lemmas -/

/-- Appending one element and then writing at its address rewrites just that
element. -/
theorem hset_append_last {α : Type} (h : Heap α) (v w : α) :
    hset (h ++ [v]) h.length w = h ++ [w] := by
  simp [hset, List.set_append]

/-- Dereferencing a freshly allocated address yields the allocated value. -/
theorem hget_append_last {α : Type} [Inhabited α] (h : Heap α) (v : α) :
    hget (h ++ [v]) h.length = v := by
  simp [hget, List.getD_append_right]

/-- A fold whose step extends both components by one element extends both
lists of the accumulator. -/
theorem foldl_extends {α β ι : Type} (step : (List α × List β) → ι → List α × List β)
    (hstep : ∀ acc q, ∃ x r, step acc q = (acc.1 ++ [x], acc.2 ++ [r]))
    (l : List ι) : ∀ (h : List α) (ap : List β),
    ∃ t u, l.foldl step (h, ap) = (h ++ t, ap ++ u) := by
  induction l with
  | nil => intro h ap; exact ⟨[], [], by simp⟩
  | cons q l ih =>
      intro h ap
      obtain ⟨x, r, hx⟩ := hstep (h, ap) q
      obtain ⟨t, u, ht⟩ := ih (h ++ [x]) (ap ++ [r])
      exact ⟨[x] ++ t, [r] ++ u, by simp only [List.foldl_cons, hx, ht, List.append_assoc]⟩

/-- A left fold that appends one image per element is an append of the map. -/
theorem foldl_append_map {α β : Type} (f : α → β) (l : List α) :
    ∀ (a : List β), l.foldl (fun acc x => acc ++ [f x]) a = a ++ l.map f := by
  induction l with
  | nil => intro a; simp
  | cons x l ih => intro a; simp [ih, List.append_assoc]

/-- The first components of the collected route pairs are exactly the members
carrying a route spec, in scan order. -/
theorem find_routes_map_fst {σ ω : Type} (ms : List (Member σ ω)) :
    (find_routes_from_router ms).map Prod.fst
      = ms.filter (fun m => m.route_spec.isSome) := by
  induction ms with
  | nil => rfl
  | cons m ms ih =>
      simp only [find_routes_from_router] at ih ⊢
      cases h : m.route_spec with
      | none => simp [List.filterMap_cons, h, List.filter_cons, ih]
      | some s => simp [List.filterMap_cons, h, List.filter_cons, ih]

/-- Every collected route pair consists of a member and the very spec attached
to it. -/
theorem find_routes_pairs {σ ω : Type} (ms : List (Member σ ω)) :
    ∀ p ∈ find_routes_from_router ms, p.1.route_spec = some p.2 := by
  induction ms with
  | nil => intro p hp; simp [find_routes_from_router] at hp
  | cons m ms ih =>
      intro p hp
      cases h : m.route_spec with
      | none =>
          apply ih
          simpa [find_routes_from_router, List.filterMap_cons, h] using hp
      | some s =>
          rcases (by simpa [find_routes_from_router, List.filterMap_cons, h] using hp :
            p = (m, s) ∨ p ∈ find_routes_from_router ms) with h1 | h1
          · subst h1; exact h
          · exact ih p h1

/-- The analogue of `find_routes_map_fst` for websocket specs. -/
theorem find_ws_map_fst {σ ω : Type} (ms : List (Member σ ω)) :
    (find_websocket_routes_from_router ms).map Prod.fst
      = ms.filter (fun m => m.ws_route_spec.isSome) := by
  induction ms with
  | nil => rfl
  | cons m ms ih =>
      simp only [find_websocket_routes_from_router] at ih ⊢
      cases h : m.ws_route_spec with
      | none => simp [List.filterMap_cons, h, List.filter_cons, ih]
      | some s => simp [List.filterMap_cons, h, List.filter_cons, ih]

namespace Litestar

/-- Replacing the value bound to `k` in place makes lookup of `k` return the
new value (when `k` is bound). -/
theorem dlookup_map_replace_self (d : Dict) (k v : Nat)
    (h : d.any (fun kv => kv.1 = k) = true) :
    dlookup (d.map (fun kv => if kv.1 = k then (k, v) else kv)) k = some v := by
  induction d with
  | nil => simp at h
  | cons kv d ih =>
      by_cases h1 : kv.1 = k
      · simp [dlookup, h1, List.find?_cons_of_pos]
      · simp only [List.any_cons, Bool.or_eq_true, decide_eq_true_eq] at h
        rcases h with h | h
        · exact absurd h h1
        · simpa [dlookup, h1, List.find?_cons_of_neg] using ih h

/-- Replacing the value bound to `k` does not change lookup of other keys. -/
theorem dlookup_map_replace_ne (d : Dict) (k v q : Nat) (hq : q ≠ k) :
    dlookup (d.map (fun kv => if kv.1 = k then (k, v) else kv)) q = dlookup d q := by
  induction d with
  | nil => rfl
  | cons kv d ih =>
      by_cases h1 : kv.1 = k
      · simp only [List.map_cons, if_pos h1, dlookup]
        rw [List.find?_cons_of_neg _ (by simp; exact Ne.symm hq),
          List.find?_cons_of_neg _ (by simp [h1]; exact Ne.symm hq)]
        simpa [dlookup] using ih
      · have hfkv : (if kv.1 = k then (k, v) else kv) = kv := if_neg h1
        by_cases h2 : kv.1 = q
        · simp only [List.map_cons, hfkv, dlookup]
          rw [List.find?_cons_of_pos _ (by simpa using h2),
            List.find?_cons_of_pos _ (by simpa using h2)]
        · simp only [List.map_cons, hfkv, dlookup]
          rw [List.find?_cons_of_neg _ (by simpa using h2),
            List.find?_cons_of_neg _ (by simpa using h2)]
          simpa [dlookup] using ih

/-- Lookup of an unbound key fails. -/
theorem dlookup_not_mem (d : Dict) (k : Nat)
    (h : d.any (fun kv => kv.1 = k) = false) : dlookup d k = none := by
  have h' : ∀ x ∈ d, ¬((fun kv : Nat × PyObj => decide (kv.1 = k)) x = true) := by
    intro x hx hc
    have : d.any (fun kv => decide (kv.1 = k)) = true := List.any_eq_true.mpr ⟨x, hx, hc⟩
    rw [h] at this
    exact Bool.false_ne_true this
  have hfind : List.find? (fun kv : Nat × PyObj => decide (kv.1 = k)) d = none :=
    List.find?_eq_none.mpr h'
  simp [dlookup, hfind]

/-- `d[k] = v` makes lookup of `k` return `v` and leaves other keys alone. -/
theorem dlookup_insert (d : Dict) (k v q : Nat) :
    dlookup (dictInsert d k v) q = if q = k then some v else dlookup d q := by
  by_cases hany : d.any (fun kv => kv.1 = k) = true
  · by_cases hq : q = k
    · subst hq; simp [dictInsert, hany, dlookup_map_replace_self d q v hany]
    · simp [dictInsert, hany, dlookup_map_replace_ne d k v q hq, hq]
  · have hf : d.any (fun kv => kv.1 = k) = false := Bool.eq_false_iff.mpr hany
    rw [dictInsert, if_neg (by rw [hf]; exact Bool.false_ne_true)]
    by_cases hq : q = k
    · rw [if_pos hq]
      subst hq
      have hn := dlookup_not_mem d q hf
      have hfind : List.find? (fun kv : Nat × PyObj => decide (kv.1 = q)) d = none := by
        cases hfe : List.find? (fun kv : Nat × PyObj => decide (kv.1 = q)) d with
        | none => rfl
        | some x => rw [dlookup, hfe] at hn; simp at hn
      simp [dlookup, List.find?_append, hfind, Option.or]
    · rw [if_neg hq]
      have hsingle : List.find? (fun kv : Nat × PyObj => decide (kv.1 = q)) [(k, v)] = none := by
        simp
        exact Ne.symm hq
      simp [dlookup, List.find?_append, hsingle]

/-- Lookup in `{**a, **b}` (for a well-formed dict `b`): the binding from `b`
wins; keys unbound in `b` fall back to `a`. -/
theorem dlookup_overlay (a b : Dict) (hb : (b.map Prod.fst).Nodup) (q : Nat) :
    dlookup (dictOverlay a b) q =
      match dlookup b q with
      | some v => some v
      | none => dlookup a q := by
  induction b generalizing a with
  | nil => simp [dictOverlay, dlookup]
  | cons kv bs ih =>
      simp only [List.map_cons, List.nodup_cons] at hb
      have step : dictOverlay a (kv :: bs) = dictOverlay (dictInsert a kv.1 kv.2) bs := rfl
      rw [step, ih _ hb.2]
      by_cases hq : q = kv.1
      · have hbs : dlookup bs q = none := by
          apply dlookup_not_mem
          rw [Bool.eq_false_iff]
          intro hc
          rw [List.any_eq_true] at hc
          obtain ⟨x, hx, hpx⟩ := hc
          refine hb.1 ?_
          rw [← hq]
          exact List.mem_map.mpr ⟨x, hx, by simpa using hpx⟩
        have hcons : dlookup (kv :: bs) q = some kv.2 := by
          simp only [dlookup]
          rw [List.find?_cons_of_pos _ (by simpa using hq.symm)]
          rfl
        rw [hbs, hcons, dlookup_insert, if_pos hq]
      · have hcons : dlookup (kv :: bs) q = dlookup bs q := by
          simp only [dlookup]
          rw [List.find?_cons_of_neg _ (by simp; exact fun h => hq h.symm)]
        rw [hcons, dlookup_insert, if_neg hq]

end Litestar

/-! ## Claim theorems -/

/-- C1: for every class object never decorated with the ROUTER decorator (no
attached router specification), `inspect_router` — and hence `mount_router` —
raises the contract-violation `TypeError` in each of the three host-framework
modules, rather than returning a defaulted result. -/
theorem c1_undecorated_discovery_raises :
    ∀ (sms : List Starlette.Fn) (lms : List Litestar.Fn) (fms : List Fastapi.Fn)
      (sapp : Starlette.App) (lapp : Litestar.App) (fapp : Fastapi.App)
      (pfx : String) (resp : Option Litestar.Dict) (tags : Option (List String))
      (iis : Option Bool) (fargs : Fastapi.MountArgs),
    Starlette.inspect_router ⟨none, sms⟩ = .error routerDecoratorError ∧
    Litestar.inspect_router ⟨none, lms⟩ = .error routerDecoratorError ∧
    Fastapi.inspect_router ⟨none, fms⟩ = .error routerDecoratorError ∧
    (Starlette.mount_router sapp ⟨none, sms⟩ pfx).1 = .error routerDecoratorError ∧
    (Litestar.mount_router lapp ⟨none, lms⟩ pfx resp tags iis).1
      = .error routerDecoratorError ∧
    (Fastapi.mount_router fapp ⟨none, fms⟩ fargs).1 = .error routerDecoratorError := by
  intros
  exact ⟨rfl, rfl, rfl, rfl, rfl, rfl⟩

/-- C10: on an undecorated class, `mount_router` raises before performing any
registration, so the host application's routing state (and, in the litestar
case, the whole application state) is returned exactly as it was. -/
theorem c10_mount_error_is_atomic :
    ∀ (sms : List Starlette.Fn) (fms : List Fastapi.Fn) (lms : List Litestar.Fn)
      (sapp : Starlette.App) (fapp : Fastapi.App) (lapp : Litestar.App)
      (pfx : String) (resp : Option Litestar.Dict) (tags : Option (List String))
      (iis : Option Bool) (fargs : Fastapi.MountArgs),
    Starlette.mount_router sapp ⟨none, sms⟩ pfx = (.error routerDecoratorError, sapp) ∧
    Fastapi.mount_router fapp ⟨none, fms⟩ fargs = (.error routerDecoratorError, fapp) ∧
    Litestar.mount_router lapp ⟨none, lms⟩ pfx resp tags iis
      = (.error routerDecoratorError, lapp) := by
  intros
  exact ⟨rfl, rfl, rfl⟩

/-- C7: applying an HTTP-method decorator instance to a function returns the
same function object — same callable identity, websocket tag and lifespan tag
untouched — with the only effect that the decorator's own specification is
attached as the route spec; and each decorator's specification defaults its
method field to the decorator's own HTTP method (shown for the two cited
modules, starlette and fastapi). -/
theorem c7_decorators_attach_without_altering :
    ∀ (d : Starlette.ROUTE) (fn : Starlette.Fn)
      (e : Fastapi.ROUTE) (gn : Fastapi.Fn) (p : String),
    Starlette.ROUTE.call d fn = { fn with route_spec := some d } ∧
    (Starlette.ROUTE.call d fn).id = fn.id ∧
    (Starlette.ROUTE.call d fn).name = fn.name ∧
    (Starlette.ROUTE.call d fn).ws_route_spec = fn.ws_route_spec ∧
    (Starlette.ROUTE.call d fn).lifespan_marker = fn.lifespan_marker ∧
    (Starlette.ROUTE.call d fn).route_spec = some d ∧
    (Starlette.GET p).methods = ["GET"] ∧
    (Starlette.POST p).methods = ["POST"] ∧
    (Starlette.PUT p).methods = ["PUT"] ∧
    (Starlette.PATCH p).methods = ["PATCH"] ∧
    (Starlette.DELETE p).methods = ["DELETE"] ∧
    (Starlette.GET p).path = p ∧
    Fastapi.ROUTE.call e gn = { gn with route_spec := some e } ∧
    (Fastapi.ROUTE.call e gn).id = gn.id ∧
    (Fastapi.ROUTE.call e gn).name = gn.name ∧
    (Fastapi.ROUTE.call e gn).ws_route_spec = gn.ws_route_spec ∧
    (Fastapi.ROUTE.call e gn).lifespan_marker = gn.lifespan_marker ∧
    (Fastapi.ROUTE.call e gn).route_spec = some e ∧
    (Fastapi.GET p).methods = ["GET"] ∧
    (Fastapi.POST p).methods = ["POST"] ∧
    (Fastapi.PUT p).methods = ["PUT"] ∧
    (Fastapi.PATCH p).methods = ["PATCH"] ∧
    (Fastapi.DELETE p).methods = ["DELETE"] ∧
    (Fastapi.GET p).path = p := by
  intros
  exact ⟨rfl, rfl, rfl, rfl, rfl, rfl, rfl, rfl, rfl, rfl, rfl, rfl,
    rfl, rfl, rfl, rfl, rfl, rfl, rfl, rfl, rfl, rfl, rfl, rfl⟩

/-- C3 counterexample: the claim quantifies over adding or removing
leading/trailing slashes in any of the three segments, but removing the
leading slash of the host-level segment (`"api"` instead of `"/api"`) makes
starlette's `_get_path` produce `"api/v1/x"`, not `"/api/v1/x"`. -/
theorem c3_slash_variation_counterexample :
    Starlette.get_path "api" { pfx := "/v1" } "/x" = "api/v1/x" ∧
    Starlette.get_path "api" { pfx := "/v1" } "/x" ≠ "/api/v1/x" ∧
    Starlette.mount_router [] ⟨some { pfx := "/v1" },
        [{ name := "h", id := 0, route_spec := some (Starlette.GET "/x") }]⟩ "api"
      = (.ok (), [Starlette.SReg.route ⟨0, "api/v1/x", true, none, none, ["GET"]⟩]) := by
  exact ⟨by decide, by decide, rfl⟩

/-- C3 amended: with host prefix `"/api"` and route path `"/x"` the
composition is invariant under the remaining slash variations — starlette's
`_get_path` yields exactly `"/api/v1/x"` for every leading/trailing slash
variation of the router-level segment and leading-slash variation of the
route path, provided the host-level segment keeps its leading slash and the
route path carries no trailing slash; litestar's host/router join yields
`"/api/v1"` under the same proviso with the router segment also carrying no
trailing slash. -/
theorem c3_slash_normalization_amended :
    ((["/api", "/api/"] : List String).all fun mp =>
      (["v1", "/v1", "v1/", "/v1/"] : List String).all fun rp =>
        (["x", "/x"] : List String).all fun p =>
          Starlette.get_path mp { pfx := rp } p = "/api/v1/x") = true ∧
    ((["/api", "/api/"] : List String).all fun mp =>
      (["v1", "/v1"] : List String).all fun rp =>
        Litestar.mount_pfx_join mp rp = "/api/v1") = true := by
  exact ⟨by decide, by decide⟩

/-- C8: the wrapper `_make_lifespan_for_router` installs around a discovered
lifespan hook enters the hook's scoped-resource block before the host body
runs, yields the body's own outcome unchanged, and runs the hook's teardown
exactly once, as the last event before the host-level lifecycle unwinds — on
every exit path of the body (normal completion, early return via `Outcome.ret`,
or an exception via `Outcome.exn`, all covered by the quantification over the
body program). -/
theorem c8_lifespan_teardown_exactly_once :
    ∀ (cm : Fastapi.CM) (body : Fastapi.Prog),
    Fastapi.make_lifespan_for_router none = none ∧
    Fastapi.make_lifespan_for_router (some cm) = some (Fastapi.pyWith cm) ∧
    (Fastapi.execP (Fastapi.pyWith cm body)).1
      = cm.enter_ev :: (Fastapi.execP body).1 ++ [cm.exit_ev] ∧
    (Fastapi.execP (Fastapi.pyWith cm body)).2 = (Fastapi.execP body).2 ∧
    (cm.exit_ev ∉ (Fastapi.execP body).1 → cm.exit_ev ≠ cm.enter_ev →
      List.count cm.exit_ev (Fastapi.execP (Fastapi.pyWith cm body)).1 = 1) := by
  intro cm body
  have htrace : (Fastapi.execP (Fastapi.pyWith cm body)).1
      = cm.enter_ev :: (Fastapi.execP body).1 ++ [cm.exit_ev] := rfl
  have hout : (Fastapi.execP (Fastapi.pyWith cm body)).2
      = (Fastapi.execP body).2 := rfl
  refine ⟨rfl, rfl, htrace, hout, ?_⟩
  intro h1 h2
  rw [htrace]
  simp [List.count_cons, List.count_append, List.count_eq_zero.mpr h1, Ne.symm h2]

/-- C8 witness: a teardown event distinct from the setup event and absent from
a concrete body trace occurs exactly once in the wrapped execution. -/
theorem c8_lifespan_teardown_exactly_once_witness :
    (1 : Nat) ∉ (Fastapi.execP (.act 2)).1 ∧ (1 : Nat) ≠ 0 ∧
    List.count 1 (Fastapi.execP (Fastapi.pyWith ⟨0, 1⟩ (.act 2))).1 = 1 :=
  ⟨by decide, by decide,
    (c8_lifespan_teardown_exactly_once ⟨0, 1⟩ (.act 2)).2.2.2.2 (by decide) (by decide)⟩

/-- C2: on a ROUTER-decorated class, discovery returns one route entry per
member carrying a route specification — the first components of the returned
pairs are exactly the decorated members, in scan order, so there are exactly
as many entries as decorated methods and each decorated method occurs exactly
once — and each entry pairs the member with the very specification object the
decorator attached to it (shown for the two cited modules, fastapi and
litestar). -/
theorem c2_discovery_one_entry_per_decorated_method :
    ∀ (fspec : Fastapi.RouterSpec) (fms : List Fastapi.Fn)
      (lspec : Litestar.RouterSpec) (lms : List Litestar.Fn),
    (∃ mem, Fastapi.inspect_router ⟨some fspec, fms⟩ = .ok mem ∧
      mem.spec = fspec ∧
      mem.routes.map Prod.fst = fms.filter (fun m => m.route_spec.isSome) ∧
      mem.routes.length = (fms.filter (fun m => m.route_spec.isSome)).length ∧
      ∀ p ∈ mem.routes, p.1.route_spec = some p.2) ∧
    (∃ mem, Litestar.inspect_router ⟨some lspec, lms⟩ = .ok mem ∧
      mem.spec = lspec ∧
      mem.routes.map Prod.fst = lms.filter (fun m => m.route_spec.isSome) ∧
      mem.routes.length = (lms.filter (fun m => m.route_spec.isSome)).length ∧
      ∀ p ∈ mem.routes, p.1.route_spec = some p.2) := by
  intro fspec fms lspec lms
  constructor
  · refine ⟨_, rfl, rfl, find_routes_map_fst fms, ?_, find_routes_pairs fms⟩
    rw [← find_routes_map_fst fms, List.length_map]
  · refine ⟨_, rfl, rfl, find_routes_map_fst lms, ?_, find_routes_pairs lms⟩
    rw [← find_routes_map_fst lms, List.length_map]

/-- C6: starlette's middleware merge is list concatenation preserving both
sources in full — `concat` on two present sequences is `[*a, *b]` (router
level first, duplicates kept) — and `mount_router` registers, for every
discovered route, a `Route` whose middleware is exactly
`concat spec.middleware route_spec.middleware` (full characterization of the
registered routes). -/
theorem c6_middleware_list_concatenation :
    ∀ (a b : List Starlette.Middleware)
      (spec : Starlette.RouterSpec) (ms : List Starlette.Fn)
      (app : Starlette.App) (pfx : String),
    Starlette.concat (some a) (some b) = some (a ++ b) ∧
    Starlette.mount_router app ⟨some spec, ms⟩ pfx
      = (.ok (), app
          ++ (find_routes_from_router ms).map (fun p =>
            Starlette.SReg.route ⟨p.1.id,
              Starlette.get_path pfx spec p.2.path, p.2.include_in_schema,
              p.2.name, Starlette.concat spec.middleware p.2.middleware,
              p.2.methods⟩)
          ++ (find_websocket_routes_from_router ms).map (fun p =>
            Starlette.SReg.ws ⟨p.1.id, Starlette.get_path pfx spec p.2.path,
              p.2.name⟩)) := by
  intro a b spec ms app pfx
  refine ⟨rfl, ?_⟩
  simp only [Starlette.mount_router, Starlette.inspect_router]
  rw [foldl_append_map, foldl_append_map, List.append_assoc]

/-- C5: litestar's tag merge is a duplicate-free set union — `concat_unique`
on two present collections yields a duplicate-free list whose elements are
exactly the union of the two (in particular `{"a","b"}` with `{"b","c"}`
yields `{"a","b","c"}` as a set) — and `mount_router` passes exactly
`concat_unique mount_tags router_tags` as the mounted router's tags. -/
theorem c5_tags_set_union :
    ∀ (a b : List String)
      (spec : Litestar.RouterSpec) (ms : List Litestar.Fn)
      (app : Litestar.App) (pfx : String) (resp : Option Litestar.Dict)
      (tg : Option (List String)) (iis : Option Bool),
    (∃ l, Litestar.concat_unique (some a) (some b) = some l ∧ l.Nodup ∧
      ∀ x, x ∈ l ↔ x ∈ a ∨ x ∈ b) ∧
    (∃ l, Litestar.concat_unique (some ["a", "b"]) (some ["b", "c"]) = some l ∧
      l.Nodup ∧ ∀ x, x ∈ l ↔ x ∈ (["a", "b", "c"] : List String)) ∧
    (∃ reg, Litestar.mount_router app ⟨some spec, ms⟩ pfx resp tg iis
      = (.ok (), app ++ [reg]) ∧ reg.tags = Litestar.concat_unique tg spec.tags) := by
  intro a b spec ms app pfx resp tg iis
  refine ⟨⟨(a ++ b).dedup, rfl, List.nodup_dedup _, ?_⟩,
    ⟨(["a", "b"] ++ ["b", "c"]).dedup, rfl, List.nodup_dedup _, ?_⟩,
    ⟨_, rfl, ?_⟩⟩
  · intro x
    simp [List.mem_dedup]
  · intro x
    simp [List.mem_dedup]
  · cases iis <;> by_cases hp : pfx = "" <;> simp [Litestar.mount_router, hp]

/-- C4 counterexample: mounting a router whose router-level responses bind 401
to one `ResponseSpec` (token 20) while the mount call supplies 401 bound to
another (token 10) passes the router-level value to the host — the merge is
`merge(responses, spec.responses)`, i.e. `{**caller, **router}`, so the
router-level value wins the tie, contradicting the claim that the
caller-supplied value wins. -/
theorem c4_responses_tie_break_counterexample :
    Litestar.mount_router [] ⟨some { responses := some [(401, 20)] },
        [{ name := "h", id := 0, route_spec := some (Litestar.GET "/get") }]⟩
      "" (some [(401, 10)]) none none
    = (.ok (), [Litestar.LReg.mk "" none none
        [Litestar.HandlerReg.mk 0 "/get" "GET" none none none (some [(401, 20)])] []]) ∧
    Litestar.dlookup [(401, 20)] 401 = some 20 ∧
    (some (20 : Nat)) ≠ some (10 : Nat) := by
  exact ⟨rfl, rfl, by decide⟩

/-- C4 amended: the merged responses mapping passed to the host is the
dictionary overlay of the mount-call mapping with the router-level mapping in
which, for every key present in both, the ROUTER-LEVEL value wins the tie
(mount-call entries only contribute keys absent from the router-level
mapping): lookup in the overlay prefers the second argument, `merge` on two
present mappings is that overlay, and `mount_router` passes
`merge mount_responses router_responses` as every registered handler's
responses. -/
theorem c4_responses_router_level_wins_amended :
    (∀ (a b : Litestar.Dict), (b.map Prod.fst).Nodup → ∀ q,
      Litestar.dlookup (Litestar.dictOverlay a b) q
        = match Litestar.dlookup b q with
          | some v => some v
          | none => Litestar.dlookup a q) ∧
    (∀ (a b : Litestar.Dict), Litestar.merge (some a) (some b)
        = some (Litestar.dictOverlay a b)) ∧
    (∀ (spec : Litestar.RouterSpec) (ms : List Litestar.Fn) (app : Litestar.App)
       (pfx : String) (resp : Option Litestar.Dict) (tg : Option (List String))
       (iis : Option Bool),
      ∃ reg, Litestar.mount_router app ⟨some spec, ms⟩ pfx resp tg iis
        = (.ok (), app ++ [reg]) ∧
        ∀ h ∈ reg.handlers, h.responses = Litestar.merge resp spec.responses) := by
  refine ⟨?_, ?_, ?_⟩
  · intro a b hb q
    exact Litestar.dlookup_overlay a b hb q
  · intro a b
    rfl
  · intro spec ms app pfx resp tg iis
    refine ⟨_, rfl, ?_⟩
    intro h hh
    obtain ⟨p, hp2, rfl⟩ := List.mem_map.mp hh
    cases iis <;> by_cases hp : pfx = "" <;> simp [hp]

/-- C4 witness: the overlay-lookup law applied at a concrete well-formed
mapping. -/
theorem c4_responses_router_level_wins_amended_witness :
    (([((401 : Nat), (20 : Nat))].map Prod.fst).Nodup) ∧
    Litestar.dlookup (Litestar.dictOverlay [(401, 10)] [(401, 20)]) 401
      = some 20 := by
  refine ⟨by decide, ?_⟩
  have h := c4_responses_router_level_wins_amended.1 [(401, 10)] [(401, 20)]
    (by decide) 401
  simpa using h

namespace Starlette

/-- The route-loop iteration in closed form: the allocated copy, with its two
field assignments applied, is appended to the heap, and the `Route` built
from its final state is appended to the registrations. -/
theorem mount_route_step_eq (spec : RouterSpec) (pfx : String)
    (acc : Heap ROUTE × App) (q : Nat × Nat) :
    mount_route_step spec pfx acc q
      = (acc.1 ++ [{ hget acc.1 q.2 with
            middleware := concat spec.middleware (hget acc.1 q.2).middleware,
            path := get_path pfx spec (hget acc.1 q.2).path }],
         acc.2 ++ [SReg.route ⟨q.1, get_path pfx spec (hget acc.1 q.2).path,
            (hget acc.1 q.2).include_in_schema, (hget acc.1 q.2).name,
            concat spec.middleware (hget acc.1 q.2).middleware,
            (hget acc.1 q.2).methods⟩]) := by
  simp [mount_route_step, halloc, hget_append_last, hset_append_last]

/-- Each route-loop iteration only appends to the route-spec heap (the
allocated copy, mutated in place) and to the registration list. -/
theorem mount_route_step_extends (spec : RouterSpec) (pfx : String) :
    ∀ (acc : Heap ROUTE × App) (q : Nat × Nat), ∃ x r,
      mount_route_step spec pfx acc q = (acc.1 ++ [x], acc.2 ++ [r]) :=
  fun acc q => ⟨_, _, mount_route_step_eq spec pfx acc q⟩

/-- The websocket-loop iteration in closed form. -/
theorem mount_ws_step_eq (spec : RouterSpec) (pfx : String)
    (acc : Heap WEBSOCKET × App) (q : Nat × Nat) :
    mount_ws_step spec pfx acc q
      = (acc.1 ++ [{ hget acc.1 q.2 with
            path := get_path pfx spec (hget acc.1 q.2).path }],
         acc.2 ++ [SReg.ws ⟨q.1, get_path pfx spec (hget acc.1 q.2).path,
            (hget acc.1 q.2).name⟩]) := by
  simp [mount_ws_step, halloc, hget_append_last, hset_append_last]

/-- Each websocket-loop iteration only appends to the websocket-spec heap and
to the registration list. -/
theorem mount_ws_step_extends (spec : RouterSpec) (pfx : String) :
    ∀ (acc : Heap WEBSOCKET × App) (q : Nat × Nat), ∃ x r,
      mount_ws_step spec pfx acc q = (acc.1 ++ [x], acc.2 ++ [r]) :=
  fun acc q => ⟨_, _, mount_ws_step_eq spec pfx acc q⟩

end Starlette

namespace Litestar

/-- The value left in the router-spec copy after the four updates of
litestar's mount (closed form, for stating the heap lemmas). -/
def mount_spec_final (v : RouterSpec) (pfx : String) (resp : Option Dict)
    (tg : Option (List String)) (iis : Option Bool) : RouterSpec :=
  let s1 := { v with responses := merge resp v.responses }
  let s2 := { s1 with tags := concat_unique tg s1.tags }
  let s3 := if pfx ≠ "" then { s2 with pfx := mount_pfx_join pfx s2.pfx } else s2
  match iis with
  | some b => { s3 with include_in_schema := some b }
  | none => s3

/-- The router-spec updates of litestar's mount in closed form: only the
freshly allocated copy at the end of the heap is rewritten. -/
theorem mount_spec_updates_eq (rh : Heap RouterSpec) (v : RouterSpec)
    (pfx : String) (resp : Option Dict) (tg : Option (List String))
    (iis : Option Bool) :
    mount_spec_updates (rh ++ [v]) rh.length pfx resp tg iis
      = rh ++ [mount_spec_final v pfx resp tg iis] := by
  cases iis <;> by_cases hp : pfx = "" <;>
    simp [mount_spec_updates, mount_spec_final, hp, hget_append_last,
      hset_append_last]

/-- The route-loop iteration in closed form. -/
theorem mount_handler_step_eq (spec : RouterSpec)
    (acc : Heap ROUTE × List HandlerReg) (q : Nat × Nat) :
    mount_handler_step spec acc q
      = (acc.1 ++ [{ hget acc.1 q.2 with
            responses := merge spec.responses (hget acc.1 q.2).responses }],
         acc.2 ++ [HandlerReg.mk q.1 (hget acc.1 q.2).path
            (hget acc.1 q.2).http_method (hget acc.1 q.2).status_code
            (hget acc.1 q.2).name (hget acc.1 q.2).tags spec.responses]) := by
  simp [mount_handler_step, halloc, hget_append_last, hset_append_last]

/-- Each route-loop iteration only appends to the route-spec heap and to the
handler list. -/
theorem mount_handler_step_extends (spec : RouterSpec) :
    ∀ (acc : Heap ROUTE × List HandlerReg) (q : Nat × Nat), ∃ x r,
      mount_handler_step spec acc q = (acc.1 ++ [x], acc.2 ++ [r]) :=
  fun acc q => ⟨_, _, mount_handler_step_eq spec acc q⟩

end Litestar

/-- starlette's heap-level mount only ever appends to the three spec heaps:
every object reachable before the call is bitwise untouched. -/
theorem starlette_mount_heap_extends (rh : Heap Starlette.RouterSpec)
    (th : Heap Starlette.ROUTE) (wh : Heap Starlette.WEBSOCKET)
    (app : Starlette.App) (r : Starlette.RouterObjH) (pfx : String) :
    ∃ e t1 t2 t3 app2,
      Starlette.mount_router_heap rh th wh app r pfx
        = (e, rh ++ t1, th ++ t2, wh ++ t3, app2) := by
  cases hrs : r.router_spec with
  | none =>
      refine ⟨.error routerDecoratorError, [], [], [], app, ?_⟩
      simp [Starlette.mount_router_heap, hrs]
  | some ra =>
      obtain ⟨t2, u2, hf⟩ := foldl_extends
        (Starlette.mount_route_step (hget rh ra) pfx)
        (Starlette.mount_route_step_extends (hget rh ra) pfx) r.routes th app
      obtain ⟨t3, u3, hg⟩ := foldl_extends
        (Starlette.mount_ws_step (hget rh ra) pfx)
        (Starlette.mount_ws_step_extends (hget rh ra) pfx) r.ws_routes wh
        (app ++ u2)
      refine ⟨.ok (), [hget rh ra], t2, t3, (app ++ u2) ++ u3, ?_⟩
      simp only [Starlette.mount_router_heap, hrs, halloc, hget_append_last]
      rw [hf]
      simp only []
      rw [hg]

/-- litestar's heap-level mount only ever appends to the router-spec and
route-spec heaps and never writes the websocket heap: every object reachable
before the call is bitwise untouched. -/
theorem litestar_mount_heap_extends (rh : Heap Litestar.RouterSpec)
    (th : Heap Litestar.ROUTE) (wh : Heap Litestar.WEBSOCKET)
    (app : Litestar.App) (r : Litestar.RouterObjH) (pfx : String)
    (resp : Option Litestar.Dict) (tg : Option (List String))
    (iis : Option Bool) :
    ∃ e t1 t2 app2,
      Litestar.mount_router_heap rh th wh app r pfx resp tg iis
        = (e, rh ++ t1, th ++ t2, wh, app2) := by
  cases hrs : r.router_spec with
  | none =>
      refine ⟨.error routerDecoratorError, [], [], app, ?_⟩
      simp [Litestar.mount_router_heap, hrs]
  | some ra =>
      obtain ⟨t2, u2, hf⟩ := foldl_extends
        (Litestar.mount_handler_step
          (Litestar.mount_spec_final (hget rh ra) pfx resp tg iis))
        (Litestar.mount_handler_step_extends
          (Litestar.mount_spec_final (hget rh ra) pfx resp tg iis)) r.routes th []
      refine ⟨.ok (), [Litestar.mount_spec_final (hget rh ra) pfx resp tg iis],
        t2,
        app ++ [Litestar.LReg.mk
          (Litestar.mount_spec_final (hget rh ra) pfx resp tg iis).pfx
          (Litestar.mount_spec_final (hget rh ra) pfx resp tg iis).tags
          (Litestar.mount_spec_final (hget rh ra) pfx resp tg iis).include_in_schema
          ([] ++ u2)
          (r.ws_routes.map (fun q => Litestar.WsHandlerReg.mk q.1
            (hget wh q.2).path (hget wh q.2).name))], ?_⟩
      simp only [Litestar.mount_router_heap, hrs, halloc,
        Litestar.mount_spec_updates_eq, hget_append_last]
      rw [hf]

/-- C9: mounting never mutates the specification objects attached to the
router class and its methods — at the heap level, both the starlette and the
litestar `mount_router` copy each router-level and route-level specification
(`replace`) before applying prefix joins and merges, so the pre-call portion
of every spec heap is returned bitwise identical (and the litestar variant
never writes the websocket heap at all).  A second `inspect_router` after any
number of mounts therefore observes the identical, unmodified
specifications. -/
theorem c9_mount_copies_specs_never_mutates :
    ∀ (srh : Heap Starlette.RouterSpec) (sth : Heap Starlette.ROUTE)
      (swh : Heap Starlette.WEBSOCKET) (sapp : Starlette.App)
      (sr : Starlette.RouterObjH) (spfx : String)
      (lrh : Heap Litestar.RouterSpec) (lth : Heap Litestar.ROUTE)
      (lwh : Heap Litestar.WEBSOCKET) (lapp : Litestar.App)
      (lr : Litestar.RouterObjH) (lpfx : String) (resp : Option Litestar.Dict)
      (tg : Option (List String)) (iis : Option Bool),
    ((Starlette.mount_router_heap srh sth swh sapp sr spfx).2.1.take srh.length
        = srh ∧
      (Starlette.mount_router_heap srh sth swh sapp sr spfx).2.2.1.take sth.length
        = sth ∧
      (Starlette.mount_router_heap srh sth swh sapp sr spfx).2.2.2.1.take swh.length
        = swh) ∧
    ((Litestar.mount_router_heap lrh lth lwh lapp lr lpfx resp tg iis).2.1.take
        lrh.length = lrh ∧
      (Litestar.mount_router_heap lrh lth lwh lapp lr lpfx resp tg iis).2.2.1.take
        lth.length = lth ∧
      (Litestar.mount_router_heap lrh lth lwh lapp lr lpfx resp tg iis).2.2.2.1
        = lwh) := by
  intro srh sth swh sapp sr spfx lrh lth lwh lapp lr lpfx resp tg iis
  obtain ⟨e, t1, t2, t3, app2, hs⟩ :=
    starlette_mount_heap_extends srh sth swh sapp sr spfx
  obtain ⟨e2, u1, u2, lapp2, hl⟩ :=
    litestar_mount_heap_extends lrh lth lwh lapp lr lpfx resp tg iis
  rw [hs, hl]
  exact ⟨⟨List.take_left srh t1, List.take_left sth t2, List.take_left swh t3⟩,
    ⟨List.take_left lrh u1, List.take_left lth u2, rfl⟩⟩
